import Mathlib

/-!
# Game Boy memory bus (`src/memory.c`): shallow embedding and checked properties

The bus state of `memory.c` is embedded as a record, every buffer being a map
from index to byte together with its size.  A C pointer into a buffer is a
region tag with a signed displacement, so that `buffer - base + addr` of the
source is followed literally.  `uint16_t` arithmetic is reduced modulo
`65536` where the source can wrap.

Outcomes that are not a normal return are kept apart:

* `Fault.fatal`        the `ERROR` macro of `log.h` (message, then `assert(0)`);
* `Fault.outOfBounds`  a load or store outside the buffer the pointer is based on;
* `Fault.nullStore`    the store of `memory.c:545` reached with `offset == NULL`;
* `Fault.unwired`      an access through a borrowed block that was never installed;
* `Fault.outOfFuel`    the embedding ran out of recursion fuel (not a C outcome).

`memory.h`, `gpu.h`, `timer.h`, `interrupts.h` and `keyboard.h` are not among
the sources.  The fields below are the ones `memory.c` names; the display
buffers are taken to span the windows the bus maps onto them (`0x2000` bytes of
video RAM, `0xA0` bytes of OAM), and the `FIRST_COL` mask of `keyboard.h` is
carried by the keyboard block.
-/

namespace GbcMemory

/-! ## Data model -/

/-- Buffers a bus pointer can be based on. -/
inductive Region
  | bios | rom | external | working | zero | vram | oam
  deriving DecidableEq, Repr

/-- Abnormal outcomes of a bus access. -/
inductive Fault
  | fatal
  | outOfBounds (r : Region) (index : Int)
  | nullStore (addr : Nat)
  | unwired
  | outOfFuel
  deriving DecidableEq, Repr

/-- Pointer `buffer + disp`; the C `NULL` is `none : Option Ptr`. -/
structure Ptr where
  region : Region
  disp : Int
  deriving DecidableEq, Repr

/-- Register block `t->reg` of the timer. -/
structure timer_reg where
  divider : Nat
  counter : Nat
  modulo : Nat
  control : Nat

/-- Timer block borrowed by the bus. -/
structure timer where
  reg : timer_reg

/-- Register block `gp->reg` of the display. -/
structure gpu_reg where
  control : Nat
  status : Nat
  scroll_y : Nat
  scroll_x : Nat
  cur_line : Nat
  check_line : Nat
  bg_pal : Nat
  sp_pal_0 : Nat
  sp_pal_1 : Nat

/-- Display block borrowed by the bus: video RAM, OAM and registers. -/
structure gpu where
  vram : Nat → Nat
  oam : Nat → Nat
  reg : gpu_reg

/-- Register block `ir->reg` of the interrupt controller. -/
structure interrupts_reg where
  flags : Nat
  enable : Nat

/-- Interrupt controller borrowed by the bus. -/
structure interrupts where
  reg : interrupts_reg

/-- Register block `kb->reg` of the keyboard. -/
structure keyboard_reg where
  active : Nat
  joyp_first : Nat
  joyp_second : Nat

/-- Keyboard block borrowed by the bus; `FIRST_COL` is the mask of `keyboard.h`. -/
structure keyboard where
  reg : keyboard_reg
  FIRST_COL : Nat

/-- The `memory` structure of `memory.c`.  Borrowed blocks are `none` until wired. -/
structure memory where
  in_bios : Nat
  bios : Nat → Nat
  rom : Nat → Nat
  rom_size : Nat
  mbc_mode : Nat
  mbc_cur_offset : Nat
  ram_cur_offset : Nat
  ram_on : Nat
  rom_ram_mode : Nat
  ram_size : Nat
  external : Nat → Nat
  working : Nat → Nat
  zero : Nat → Nat
  gp : Option gpu
  ir : Option interrupts
  t : Option timer
  kb : Option keyboard

/-- Store of one byte in a buffer: `buf[i] = v`. -/
def poke (buf : Nat → Nat) (i v : Nat) : Nat → Nat :=
  fun j => if j = i then v else buf j

/-- Number of bytes of the buffer a pointer is based on. -/
def buffer_size (mem : memory) : Region → Nat
  | .bios => 256
  | .rom => mem.rom_size
  | .external => mem.ram_size
  | .working => 0x2000
  | .zero => 0x80
  | .vram => 0x2000
  | .oam => 0xA0

/-- The load `*(uint8_t*)(offset + addr)` of `memory.c:304`, preceded by the
`offset == NULL` test of line 301. -/
def load (mem : memory) (offset : Option Ptr) (addr : Nat) : Except Fault Nat :=
  match offset with
  | none => .error .fatal
  | some p =>
    let i : Int := p.disp + addr
    if i < 0 ∨ (buffer_size mem p.region : Int) ≤ i then
      .error (.outOfBounds p.region i)
    else
      match p.region with
      | .bios => .ok (mem.bios i.toNat)
      | .rom => .ok (mem.rom i.toNat)
      | .external => .ok (mem.external i.toNat)
      | .working => .ok (mem.working i.toNat)
      | .zero => .ok (mem.zero i.toNat)
      | .vram =>
        match mem.gp with
        | none => .error .unwired
        | some g => .ok (g.vram i.toNat)
      | .oam =>
        match mem.gp with
        | none => .error .unwired
        | some g => .ok (g.oam i.toNat)

/-- The store `*(uint8_t*)(offset + addr) = value` (`memory.c:338` and `:545`);
line 545 has no `NULL` test, so a null `offset` is a store at address `addr`. -/
def store (mem : memory) (offset : Option Ptr) (addr value : Nat) : Except Fault memory :=
  match offset with
  | none => .error (.nullStore addr)
  | some p =>
    let i : Int := p.disp + addr
    if i < 0 ∨ (buffer_size mem p.region : Int) ≤ i then
      .error (.outOfBounds p.region i)
    else
      match p.region with
      | .bios => .ok { mem with bios := poke mem.bios i.toNat value }
      | .rom => .ok { mem with rom := poke mem.rom i.toNat value }
      | .external => .ok { mem with external := poke mem.external i.toNat value }
      | .working => .ok { mem with working := poke mem.working i.toNat value }
      | .zero => .ok { mem with zero := poke mem.zero i.toNat value }
      | .vram =>
        match mem.gp with
        | none => .error .unwired
        | some g => .ok { mem with gp := some { g with vram := poke g.vram i.toNat value } }
      | .oam =>
        match mem.gp with
        | none => .error .unwired
        | some g => .ok { mem with gp := some { g with oam := poke g.oam i.toNat value } }

/-! ## Reads -/

/-- Source `memory_read_byte_membank` (`memory.c:118`): base pointer of the
banked ROM window and of the external RAM window. -/
def memory_read_byte_membank (mem : memory) (addr : Nat) : Option Ptr :=
  if addr ≥ 0x4000 ∧ addr < 0x8000 then
    some ⟨.rom, mem.mbc_cur_offset⟩
  else if addr ≥ 0xA000 ∧ addr < 0xC000 then
    some ⟨.external, (mem.ram_cur_offset : Int) - 0xA000⟩
  else
    none

/-- Source `memory_read_byte` (`memory.c:128`). -/
def memory_read_byte (mem : memory) (addr : Nat) : Except Fault Nat :=
  let n := (addr &&& 0xF000) >>> 12
  if n = 0x0 then
    if addr &&& 0xFF00 = 0 ∧ mem.in_bios ≠ 0 then
      load mem (some ⟨.bios, 0⟩) addr
    else
      load mem (some ⟨.rom, 0⟩) addr
  else if n = 0x1 ∨ n = 0x2 ∨ n = 0x3 then
    load mem (some ⟨.rom, 0⟩) addr
  else if n = 0x4 ∨ n = 0x5 ∨ n = 0x6 ∨ n = 0x7 then
    load mem (memory_read_byte_membank mem addr) addr
  else if n = 0x8 ∨ n = 0x9 then
    load mem (some ⟨.vram, -0x8000⟩) addr
  else if n = 0xA ∨ n = 0xB then
    if mem.ram_size = 0 then .error .fatal
    else if addr - 0xA000 > mem.ram_size then .error .fatal
    else load mem (memory_read_byte_membank mem addr) addr
  else if n = 0xC ∨ n = 0xD then
    load mem (some ⟨.working, -0xC000⟩) addr
  else if n = 0xE then
    load mem (some ⟨.working, -0xE000⟩) addr
  else if n = 0xF then
    if (addr &&& 0x0F00) >>> 8 < 0xE then
      load mem (some ⟨.working, -0xE000⟩) addr
    else if (addr &&& 0x0F00) >>> 8 = 0xE then
      if (addr &&& 0x00F0) >>> 4 < 0xA then
        load mem (some ⟨.oam, -0xFE00⟩) addr
      else
        .ok 0
    else if addr ≥ 0xFF80 then
      load mem (some ⟨.zero, -0xFF80⟩) addr
    else if addr = 0xFF04 then
      match mem.t with
      | none => .error .unwired
      | some t => .ok t.reg.divider
    else if addr = 0xFF05 then
      match mem.t with
      | none => .error .unwired
      | some t => .ok t.reg.counter
    else if addr = 0xFF06 then
      match mem.t with
      | none => .error .unwired
      | some t => .ok t.reg.modulo
    else if addr = 0xFF07 then
      match mem.t with
      | none => .error .unwired
      | some t => .ok t.reg.control
    else if addr = 0xFF40 then
      match mem.gp with
      | none => .error .unwired
      | some g => .ok g.reg.control
    else if addr = 0xFF41 then
      match mem.gp with
      | none => .error .unwired
      | some g => .ok g.reg.status
    else if addr = 0xFF42 then
      match mem.gp with
      | none => .error .unwired
      | some g => .ok g.reg.scroll_y
    else if addr = 0xFF43 then
      match mem.gp with
      | none => .error .unwired
      | some g => .ok g.reg.scroll_x
    else if addr = 0xFF44 then
      match mem.gp with
      | none => .error .unwired
      | some g => .ok g.reg.cur_line
    else if addr = 0xFF45 then
      match mem.gp with
      | none => .error .unwired
      | some g => .ok g.reg.check_line
    else if addr = 0xFF50 then
      .ok mem.in_bios
    else if addr = 0xFF00 then
      match mem.kb with
      | none => .error .unwired
      | some k =>
        let value := if k.reg.active &&& k.FIRST_COL ≠ 0 then k.reg.joyp_first
                     else k.reg.joyp_second
        .ok (value &&& 0xF)
    else if addr = 0xFF0F then
      match mem.ir with
      | none => .error .unwired
      | some i => .ok i.reg.flags
    else if addr = 0xFFFF then
      match mem.ir with
      | none => .error .unwired
      | some i => .ok i.reg.enable
    else
      .ok 0
  else
    load mem none addr

/-- Source `memory_read_word` (`memory.c:307`): little-endian, `addr + 1` and
the sum truncated to `uint16_t`. -/
def memory_read_word (mem : memory) (addr : Nat) : Except Fault Nat :=
  match memory_read_byte mem addr with
  | .error e => .error e
  | .ok lo =>
    match memory_read_byte mem ((addr + 1) % 65536) with
    | .error e => .error e
    | .ok hi => .ok ((lo + (hi <<< 8)) % 65536)

/-! ## Writes -/

/-- Source `memory_write_byte_membank` (`memory.c:311`): the bank controller.
`ram_on` is assigned in case `0x1` and consulted nowhere. -/
def memory_write_byte_membank (mem : memory) (addr value : Nat) : Except Fault memory :=
  if mem.mbc_mode = 0 then .ok mem
  else
    let n := (addr &&& 0xF000) >>> 12
    if n = 0x1 then
      .ok { mem with ram_on := if value &&& 0x0F = 0x0A then 1 else 0 }
    else if n = 0x2 ∨ n = 0x3 then
      let value := value &&& 0x0F
      let value := if value = 0 then 1 else value
      .ok { mem with mbc_cur_offset := value * 0x4000 }
    else if n = 0x4 ∨ n = 0x5 then
      if mem.rom_ram_mode ≠ 0 then
        .ok { mem with ram_cur_offset := (value &&& 0x3) * 0x2000 }
      else
        .ok { mem with mbc_cur_offset :=
                ((mem.mbc_cur_offset / 0x4000) &&& 0x1F) + ((value >>> 4) &&& 3) * 0x4000 }
    else if n = 0x6 ∨ n = 0x7 then
      .ok { mem with rom_ram_mode := value &&& 0x1 }
    else if n = 0xA ∨ n = 0xB then
      store mem (some ⟨.external, (mem.ram_cur_offset : Int) - 0xA000⟩) addr value
    else
      .ok mem

/-- Loop of `memory_dma_transfert` (`memory.c:114`):
`for (; from < length; from++, to++) write_byte(to, read_byte(from))`, the two
`uint16_t` counters incremented modulo `65536`; `wb` is the byte write the loop
calls and one unit of fuel is spent per loop test. -/
def memory_dma_loop (wb : memory → Nat → Nat → Except Fault memory) :
    Nat → memory → Nat → Nat → Nat → Except Fault memory
  | 0, _, _, _, _ => .error .outOfFuel
  | fuel + 1, mem, from_, to_, length =>
    if from_ < length then
      match memory_read_byte mem from_ with
      | .error e => .error e
      | .ok b =>
        match wb mem to_ b with
        | .error e => .error e
        | .ok mem' =>
          memory_dma_loop wb fuel mem' ((from_ + 1) % 65536) ((to_ + 1) % 65536) length
    else
      .ok mem

/-- Source `memory_dma_transfert` (`memory.c:112`): `length += from` in
`uint16_t`, then the copy loop. -/
def memory_dma_transfert (wb : memory → Nat → Nat → Except Fault memory)
    (fuel : Nat) (mem : memory) (from_ to_ length : Nat) : Except Fault memory :=
  let length := (length + from_) % 65536
  memory_dma_loop wb fuel mem from_ to_ length

/-- Source `memory_write_byte` (`memory.c:343`).  The first argument is fuel:
one unit per call, the rest handed to the DMA loop and to the writes it makes. -/
def memory_write_byte : Nat → memory → Nat → Nat → Except Fault memory
  | 0, _, _, _ => .error .outOfFuel
  | fuel + 1, mem, addr, value =>
    let n := (addr &&& 0xF000) >>> 12
    if n = 0x0 then
      if addr &&& 0xFF00 = 0 ∧ mem.in_bios ≠ 0 then
        store mem (some ⟨.bios, 0⟩) addr value
      else
        .error .fatal
    else if n = 0x1 ∨ n = 0x2 ∨ n = 0x3 ∨ n = 0x4 ∨ n = 0x5 ∨ n = 0x6 ∨ n = 0x7 then
      memory_write_byte_membank mem addr value
    else if n = 0x8 ∨ n = 0x9 then
      store mem (some ⟨.vram, -0x8000⟩) addr value
    else if n = 0xA ∨ n = 0xB then
      if mem.ram_size = 0 then .error .fatal
      else if addr - 0xA000 > mem.ram_size then .error .fatal
      else
        match memory_write_byte_membank mem addr value with
        | .error e => .error e
        | .ok mem' => store mem' none addr value
    else if n = 0xC ∨ n = 0xD then
      store mem (some ⟨.working, -0xC000⟩) addr value
    else if n = 0xE then
      store mem (some ⟨.working, -0xE000⟩) addr value
    else if n = 0xF then
      if (addr &&& 0x0F00) >>> 8 < 0xE then
        store mem (some ⟨.working, -0xE000⟩) addr value
      else if (addr &&& 0x0F00) >>> 8 = 0xE then
        if (addr &&& 0x00F0) >>> 4 < 0xA then
          store mem (some ⟨.oam, -0xFE00⟩) addr value
        else
          .ok mem
      else if addr = 0xFF04 then
        match mem.t with
        | none => .error .unwired
        | some t => .ok { mem with t := some { t with reg := { t.reg with divider := 0x0 } } }
      else if addr = 0xFF05 then
        match mem.t with
        | none => .error .unwired
        | some t => .ok { mem with t := some { t with reg := { t.reg with counter := value } } }
      else if addr = 0xFF06 then
        match mem.t with
        | none => .error .unwired
        | some t => .ok { mem with t := some { t with reg := { t.reg with modulo := value } } }
      else if addr = 0xFF07 then
        match mem.t with
        | none => .error .unwired
        | some t =>
          .ok { mem with t := some { t with reg := { t.reg with control := value &&& 0x7 } } }
      else if addr = 0xFF40 then
        match mem.gp with
        | none => .error .unwired
        | some g => .ok { mem with gp := some { g with reg := { g.reg with control := value } } }
      else if addr = 0xFF41 then
        match mem.gp with
        | none => .error .unwired
        | some g => .ok { mem with gp := some { g with reg := { g.reg with status := value } } }
      else if addr = 0xFF42 then
        match mem.gp with
        | none => .error .unwired
        | some g => .ok { mem with gp := some { g with reg := { g.reg with scroll_y := value } } }
      else if addr = 0xFF43 then
        match mem.gp with
        | none => .error .unwired
        | some g => .ok { mem with gp := some { g with reg := { g.reg with scroll_x := value } } }
      else if addr = 0xFF45 then
        match mem.gp with
        | none => .error .unwired
        | some g =>
          .ok { mem with gp := some { g with reg := { g.reg with check_line := value } } }
      else if addr = 0xFF47 then
        match mem.gp with
        | none => .error .unwired
        | some g => .ok { mem with gp := some { g with reg := { g.reg with bg_pal := value } } }
      else if addr = 0xFF48 then
        match mem.gp with
        | none => .error .unwired
        | some g => .ok { mem with gp := some { g with reg := { g.reg with sp_pal_0 := value } } }
      else if addr = 0xFF49 then
        match mem.gp with
        | none => .error .unwired
        | some g => .ok { mem with gp := some { g with reg := { g.reg with sp_pal_1 := value } } }
      else if addr = 0xFF50 ∧ mem.in_bios ≠ 0 then
        .ok { mem with in_bios := if value = 0 then 1 else 0 }
      else if addr = 0xFF00 then
        match mem.kb with
        | none => .error .unwired
        | some k => .ok { mem with kb := some { k with reg := { k.reg with active := value } } }
      else if addr = 0xFF0F then
        match mem.ir with
        | none => .error .unwired
        | some i => .ok { mem with ir := some { i with reg := { i.reg with flags := value } } }
      else if addr = 0xFFFF then
        match mem.ir with
        | none => .error .unwired
        | some i => .ok { mem with ir := some { i with reg := { i.reg with enable := value } } }
      else if addr = 0xFF46 then
        memory_dma_transfert (memory_write_byte fuel) fuel mem ((value <<< 8) % 65536) 0xFE00 0xA0
      else if addr ≥ 0xFF80 ∧ addr ≤ 0xFFFE then
        store mem (some ⟨.zero, -0xFF80⟩) addr value
      else
        .ok mem
    else
      store mem none addr value

/-- Source `memory_write_word` (`memory.c:548`): low byte at `addr`, then high
byte at `addr + 1` (truncated to `uint16_t`). -/
def memory_write_word (fuel : Nat) (mem : memory) (addr value : Nat) : Except Fault memory :=
  match memory_write_byte fuel mem addr (value &&& 0xFF) with
  | .error e => .error e
  | .ok mem' => memory_write_byte fuel mem' ((addr + 1) % 65536) (value >>> 8)

/-- Source `memory_set_bios` (`memory.c:94`). -/
def memory_set_bios (mem : memory) (status : Nat) : memory :=
  { mem with in_bios := status }

/-- Source `memory_set_gpu` (`memory.c:98`): installs video RAM, OAM and the
display registers. -/
def memory_set_gpu (mem : memory) (gp : gpu) : memory :=
  { mem with gp := some gp }

/-- Source `memory_set_interrupts` (`memory.c:104`). -/
def memory_set_interrupts (mem : memory) (ir : interrupts) : memory :=
  { mem with ir := some ir }

/-- Source `memory_set_timer` (`memory.c:108`). -/
def memory_set_timer (mem : memory) (t : timer) : memory :=
  { mem with t := some t }

/-! ## Sequencing helpers and the manual DMA description -/

/-- A byte read performed on the state a write returned. -/
def read_byte_after (r : Except Fault memory) (addr : Nat) : Except Fault Nat :=
  match r with
  | .error e => .error e
  | .ok mem => memory_read_byte mem addr

/-- A word read performed on the state a write returned. -/
def read_word_after (r : Except Fault memory) (addr : Nat) : Except Fault Nat :=
  match r with
  | .error e => .error e
  | .ok mem => memory_read_word mem addr

/-- Projection of a field out of the state a write returned. -/
def field_after {α : Type} (r : Except Fault memory) (f : memory → α) : Except Fault α :=
  match r with
  | .error e => .error e
  | .ok mem => .ok (f mem)

/-- One manual copy of the DMA description:
`write_byte(0xFE00 + i, read_byte((v << 8) + i))`. -/
def dma_manual_step (fuel v : Nat) (mem : memory) (i : Nat) : Except Fault memory :=
  match memory_read_byte mem ((v <<< 8) + i) with
  | .error e => .error e
  | .ok b => memory_write_byte fuel mem (0xFE00 + i) b

/-- The 160 manual copies `i = 0, 1, ..., 159` in order, stopping at the first fault. -/
def dma_manual (fuel v : Nat) (mem : memory) : Except Fault memory :=
  (List.range 160).foldlM (dma_manual_step fuel v) mem

/-! ## Concrete bus states -/

/-- Source `standard_bios` (`memory.c:9`): the 256-byte boot ROM. -/
def standard_bios : List Nat := [
  0x31, 0xFE, 0xFF, 0xAF, 0x21, 0xFF, 0x9F, 0x32, 0xCB, 0x7C, 0x20, 0xFB, 0x21, 0x26, 0xFF, 0x0E,
  0x11, 0x3E, 0x80, 0x32, 0xE2, 0x0C, 0x3E, 0xF3, 0xE2, 0x32, 0x3E, 0x77, 0x77, 0x3E, 0xFC, 0xE0,
  0x47, 0x11, 0x04, 0x01, 0x21, 0x10, 0x80, 0x1A, 0xCD, 0x95, 0x00, 0xCD, 0x96, 0x00, 0x13, 0x7B,
  0xFE, 0x34, 0x20, 0xF3, 0x11, 0xD8, 0x00, 0x06, 0x08, 0x1A, 0x13, 0x22, 0x23, 0x05, 0x20, 0xF9,
  0x3E, 0x19, 0xEA, 0x10, 0x99, 0x21, 0x2F, 0x99, 0x0E, 0x0C, 0x3D, 0x28, 0x08, 0x32, 0x0D, 0x20,
  0xF9, 0x2E, 0x0F, 0x18, 0xF3, 0x67, 0x3E, 0x64, 0x57, 0xE0, 0x42, 0x3E, 0x91, 0xE0, 0x40, 0x04,
  0x1E, 0x02, 0x0E, 0x0C, 0xF0, 0x44, 0xFE, 0x90, 0x20, 0xFA, 0x0D, 0x20, 0xF7, 0x1D, 0x20, 0xF2,
  0x0E, 0x13, 0x24, 0x7C, 0x1E, 0x83, 0xFE, 0x62, 0x28, 0x06, 0x1E, 0xC1, 0xFE, 0x64, 0x20, 0x06,
  0x7B, 0xE2, 0x0C, 0x3E, 0x87, 0xF2, 0xF0, 0x42, 0x90, 0xE0, 0x42, 0x15, 0x20, 0xD2, 0x05, 0x20,
  0x4F, 0x16, 0x20, 0x18, 0xCB, 0x4F, 0x06, 0x04, 0xC5, 0xCB, 0x11, 0x17, 0xC1, 0xCB, 0x11, 0x17,
  0x05, 0x20, 0xF5, 0x22, 0x23, 0x22, 0x23, 0xC9, 0xCE, 0xED, 0x66, 0x66, 0xCC, 0x0D, 0x00, 0x0B,
  0x03, 0x73, 0x00, 0x83, 0x00, 0x0C, 0x00, 0x0D, 0x00, 0x08, 0x11, 0x1F, 0x88, 0x89, 0x00, 0x0E,
  0xDC, 0xCC, 0x6E, 0xE6, 0xDD, 0xDD, 0xD9, 0x99, 0xBB, 0xBB, 0x67, 0x63, 0x6E, 0x0E, 0xEC, 0xCC,
  0xDD, 0xDC, 0x99, 0x9F, 0xBB, 0xB9, 0x33, 0x3E, 0x3C, 0x42, 0xB9, 0xA5, 0xB9, 0xA5, 0x42, 0x4C,
  0x21, 0x04, 0x01, 0x11, 0xA8, 0x00, 0x1A, 0x13, 0xBE, 0x20, 0xFE, 0x23, 0x7D, 0xFE, 0x34, 0x20,
  0xF5, 0x06, 0x19, 0x78, 0x86, 0x23, 0x05, 0x20, 0xFB, 0x86, 0x20, 0xFE, 0x3E, 0x01, 0xE0, 0x50]

/-- Display block with cleared buffers and registers. -/
def blank_gpu : gpu :=
  { vram := fun _ => 0, oam := fun _ => 0,
    reg := { control := 0, status := 0, scroll_y := 0, scroll_x := 0, cur_line := 0,
             check_line := 0, bg_pal := 0, sp_pal_0 := 0, sp_pal_1 := 0 } }

/-- A running banked cartridge: controller type 1, a 32-bank ROM image whose
every byte holds the number of the bank it lies in, bank 1 selected
(`mbc_cur_offset = 0x4000`, as left by a write of `1` to `0x2000`), 2048 bytes
of cleared external RAM (RAM-size code 1) not yet enabled, boot overlay
already disabled, every collaborator wired, interrupt-enable mask `0x1F`. -/
def mbc1_bus : memory :=
  { in_bios := 0,
    bios := fun i => standard_bios.getD i 0,
    rom := fun i => (i / 0x4000) % 256,
    rom_size := 0x80000,
    mbc_mode := 1,
    mbc_cur_offset := 0x4000,
    ram_cur_offset := 0,
    ram_on := 0,
    rom_ram_mode := 0,
    ram_size := 2048,
    external := fun _ => 0,
    working := fun _ => 0,
    zero := fun _ => 0,
    gp := some blank_gpu,
    ir := some { reg := { flags := 0, enable := 0x1F } },
    t := some { reg := { divider := 0, counter := 0, modulo := 0, control := 0 } },
    kb := some { reg := { active := 0, joyp_first := 0xF, joyp_second := 0xF },
                 FIRST_COL := 0x10 } }

/-- The state `mbc1_bus` after the RAM-enable write `write_byte(0x1000, 0x0A)`. -/
def mbc1_bus_ram_on : memory :=
  { mbc1_bus with ram_on := 1 }

/-- The state `mbc1_bus` while the boot overlay is still mapped. -/
def boot_bus : memory :=
  { mbc1_bus with in_bios := 1, mbc_cur_offset := 0 }

/-! ## Construction -/

/-- Fields of `rom->header` that `memory_init` reads. -/
structure GB_header where
  type : Nat
  ram_size : Nat

/-- The parsed cartridge `GB` handed to `memory_init`. -/
structure GB where
  header : GB_header

/-- Controller-type codes `ROM_ONLY`, `MBC1`, `MBC1_RAM`, `MBC2`; the header
that defines them is not among the sources, so they are a parameter. -/
structure mbc_types where
  ROM_ONLY : Nat
  MBC1 : Nat
  MBC1_RAM : Nat
  MBC2 : Nat

/-- What `memory_init` gets from its environment: whether each allocation
succeeds, the image `gbc_load_in_memory` returns (`none` for `NULL`) with its
length, and the indeterminate content of fresh `malloc` memory that
`mem->ram_size` keeps when no case of the RAM-size switch matches. -/
structure init_env where
  malloc_ok : Bool
  rom : Option (Nat → Nat)
  rom_size : Nat
  external_ok : Bool
  working_ok : Bool
  zero_ok : Bool
  ram_size_uninit : Nat

/-- Source `memory_init` (`memory.c:28`).  The borrowed blocks are left
unwired; `calloc` buffers are zero-filled. -/
def memory_init (K : mbc_types) (env : init_env) (rom : GB) : Except Fault memory :=
  if env.malloc_ok = false then .error .fatal
  else
    match env.rom with
    | none => .error .fatal
    | some image =>
      let mbc_mode := rom.header.type
      if ¬ (mbc_mode = K.ROM_ONLY ∨ mbc_mode = K.MBC1 ∨ mbc_mode = K.MBC1_RAM
            ∨ mbc_mode = K.MBC2) then
        .error .fatal
      else if rom.header.ram_size = 0x3 then .error .fatal
      else
        let ram_size :=
          if rom.header.ram_size = 0x0 then 0
          else if rom.header.ram_size = 0x1 then 2048
          else if rom.header.ram_size = 0x2 then 8192
          else env.ram_size_uninit
        if ram_size ≠ 0 ∧ env.external_ok = false then .error .fatal
        else if env.working_ok = false then .error .fatal
        else if env.zero_ok = false then .error .fatal
        else
          .ok { in_bios := 1,
                bios := fun i => standard_bios.getD i 0,
                rom := image,
                rom_size := env.rom_size,
                mbc_mode := mbc_mode,
                mbc_cur_offset := 0x0,
                ram_cur_offset := 0x0,
                ram_on := 0,
                rom_ram_mode := 0,
                ram_size := ram_size,
                external := fun _ => 0,
                working := fun _ => 0,
                zero := fun _ => 0,
                gp := none, ir := none, t := none, kb := none }

/-- The controller-type codes of the cartridge header format
(`0x00`, `0x01`, `0x02`, `0x05`), used for the concrete runs. -/
def header_codes : mbc_types :=
  { ROM_ONLY := 0x00, MBC1 := 0x01, MBC1_RAM := 0x02, MBC2 := 0x05 }

/-- An environment in which every allocation succeeds and the loaded image is
the 32-bank ROM of `mbc1_bus`. -/
def plain_env : init_env :=
  { malloc_ok := true, rom := some (fun i => (i / 0x4000) % 256), rom_size := 0x80000,
    external_ok := true, working_ok := true, zero_ok := true, ram_size_uninit := 0 }

/-- Header of an `MBC1` cartridge with RAM-size code 1. -/
def mbc1_cartridge : GB :=
  { header := { type := 0x01, ram_size := 0x1 } }

/-! ## Sequences of bus writes -/

/-- One bus write: `write_byte(addr, value)` or `write_word(addr, value)`. -/
inductive bus_write
  | byte (addr value : Nat)
  | word (addr value : Nat)

/-- The writes of a list performed in order, stopping at the first fault. -/
def run_writes (fuel : Nat) : List bus_write → memory → Except Fault memory
  | [], mem => .ok mem
  | .byte addr value :: rest, mem =>
    match memory_write_byte fuel mem addr value with
    | .error e => .error e
    | .ok mem' => run_writes fuel rest mem'
  | .word addr value :: rest, mem =>
    match memory_write_word fuel mem addr value with
    | .error e => .error e
    | .ok mem' => run_writes fuel rest mem'

/-- The writes of a list performed on the bus a construction returned. -/
def run_writes_after (r : Except Fault memory) (fuel : Nat) (ops : List bus_write) :
    Except Fault memory :=
  match r with
  | .error e => .error e
  | .ok mem => run_writes fuel ops mem

/-! ## Address decoding lemmas -/

theorem and_shl_shr (a k s : Nat) : (a &&& (k <<< s)) >>> s = (a >>> s) &&& k := by
  apply Nat.eq_of_testBit_eq
  intro j
  simp [Nat.testBit_shiftRight, Nat.testBit_and, Nat.testBit_shiftLeft]

theorem and_shl (a k s : Nat) : a &&& (k <<< s) = ((a >>> s) &&& k) <<< s := by
  apply Nat.eq_of_testBit_eq
  intro j
  by_cases h : s ≤ j
  · simp [Nat.testBit_shiftRight, Nat.testBit_and, Nat.testBit_shiftLeft, h,
      Nat.add_sub_cancel' h]
  · simp [Nat.testBit_shiftRight, Nat.testBit_and, Nat.testBit_shiftLeft, h]

/-- The switch selector `(addr & 0xF000) >> 12` is the top nibble of a 16-bit address. -/
theorem nib12 (a : Nat) : (a &&& 0xF000) >>> 12 = a / 4096 % 16 := by
  have h := and_shl_shr a 15 12
  have e : (15 <<< 12 : Nat) = 0xF000 := by decide
  rw [e] at h
  rw [h, Nat.shiftRight_eq_div_pow]
  exact Nat.and_pow_two_sub_one_eq_mod _ 4

/-- The selector `(addr & 0x0F00) >> 8` is the second nibble. -/
theorem nib8 (a : Nat) : (a &&& 0x0F00) >>> 8 = a / 256 % 16 := by
  have h := and_shl_shr a 15 8
  have e : (15 <<< 8 : Nat) = 0x0F00 := by decide
  rw [e] at h
  rw [h, Nat.shiftRight_eq_div_pow]
  exact Nat.and_pow_two_sub_one_eq_mod _ 4

/-- The selector `(addr & 0x00F0) >> 4` is the third nibble. -/
theorem nib4 (a : Nat) : (a &&& 0x00F0) >>> 4 = a / 16 % 16 := by
  have h := and_shl_shr a 15 4
  have e : (15 <<< 4 : Nat) = 0x00F0 := by decide
  rw [e] at h
  rw [h, Nat.shiftRight_eq_div_pow]
  exact Nat.and_pow_two_sub_one_eq_mod _ 4

/-- The test `(addr & 0xFF00) == 0` holds exactly when the high byte is zero. -/
theorem page_zero (a : Nat) : a &&& 0xFF00 = 0 ↔ a / 256 % 256 = 0 := by
  have h := and_shl a 255 8
  have e : (255 <<< 8 : Nat) = 0xFF00 := by decide
  rw [e] at h
  have h2 : (a >>> 8) &&& 255 = a / 256 % 256 := by
    rw [Nat.shiftRight_eq_div_pow]
    exact Nat.and_pow_two_sub_one_eq_mod _ 8
  rw [h, h2, Nat.shiftLeft_eq]
  omega

/-! ## Routing of the RAM and OAM windows -/

theorem write_byte_working (f : Nat) (m : memory) (a v : Nat)
    (h1 : 0xC000 ≤ a) (h2 : a < 0xE000) :
    memory_write_byte (f + 1) m a v
      = .ok { m with working := poke m.working (a - 0xC000) v } := by
  have hn : a / 4096 % 16 = 12 ∨ a / 4096 % 16 = 13 := by omega
  have hi : ((-0xC000 + (a : Int)).toNat) = a - 0xC000 := by omega
  rcases hn with hn | hn <;>
    simp [memory_write_byte, nib12, hn, store, buffer_size, hi, h1, h2]

theorem write_byte_echo (f : Nat) (m : memory) (a v : Nat)
    (h1 : 0xE000 ≤ a) (h2 : a < 0xFE00) :
    memory_write_byte (f + 1) m a v
      = .ok { m with working := poke m.working (a - 0xE000) v } := by
  have hi : ((-0xE000 + (a : Int)).toNat) = a - 0xE000 := by omega
  have hn : a / 4096 % 16 = 14 ∨ (a / 4096 % 16 = 15 ∧ a / 256 % 16 < 14) := by omega
  rcases hn with hn | ⟨hn, hp⟩
  · simp [memory_write_byte, nib12, hn, store, buffer_size, hi, h1]
    omega
  · simp [memory_write_byte, nib12, nib8, hn, hp, store, buffer_size, hi, h1]
    omega

theorem read_byte_working (m : memory) (a : Nat) (h1 : 0xC000 ≤ a) (h2 : a < 0xE000) :
    memory_read_byte m a = .ok (m.working (a - 0xC000)) := by
  have hn : a / 4096 % 16 = 12 ∨ a / 4096 % 16 = 13 := by omega
  have hi : ((-0xC000 + (a : Int)).toNat) = a - 0xC000 := by omega
  rcases hn with hn | hn <;>
    simp [memory_read_byte, nib12, hn, load, buffer_size, hi, h1, h2]

theorem read_byte_echo (m : memory) (a : Nat) (h1 : 0xE000 ≤ a) (h2 : a < 0xFE00) :
    memory_read_byte m a = .ok (m.working (a - 0xE000)) := by
  have hi : ((-0xE000 + (a : Int)).toNat) = a - 0xE000 := by omega
  have hn : a / 4096 % 16 = 14 ∨ (a / 4096 % 16 = 15 ∧ a / 256 % 16 < 14) := by omega
  rcases hn with hn | ⟨hn, hp⟩
  · simp [memory_read_byte, nib12, hn, load, buffer_size, hi, h1]
    omega
  · simp [memory_read_byte, nib12, nib8, hn, hp, load, buffer_size, hi, h1]
    omega

/-- A write in `0xFE00-0xFE9F` is a store in the display's OAM, whatever the fuel. -/
theorem write_byte_oam (f : Nat) (m : memory) (a v : Nat)
    (h1 : 0xFE00 ≤ a) (h2 : a < 0xFEA0) :
    memory_write_byte (f + 1) m a v
      = match m.gp with
        | none => .error .unwired
        | some g => .ok { m with gp := some { g with oam := poke g.oam (a - 0xFE00) v } } := by
  have hi : ((-0xFE00 + (a : Int)).toNat) = a - 0xFE00 := by omega
  have hn : a / 4096 % 16 = 15 := by omega
  have hp : a / 256 % 16 = 14 := by omega
  have hq : a / 16 % 16 < 10 := by omega
  simp [memory_write_byte, nib12, nib8, nib4, hn, hp, hq, store, buffer_size, hi, h1]
  intro h
  omega

/-! ## Reads never consume fuel -/

theorem load_ne_outOfFuel (m : memory) (p : Option Ptr) (a : Nat) :
    load m p a ≠ .error .outOfFuel := by
  cases p with
  | none => simp [load]
  | some p =>
    obtain ⟨r, d⟩ := p
    cases r <;> simp only [load] <;> split_ifs <;> simp <;> cases m.gp <;> simp

theorem ite_ne_of_ne {α : Type} (c : Prop) [Decidable c] (x y e : α)
    (hx : x ≠ e) (hy : y ≠ e) : (if c then x else y) ≠ e := by
  split <;> assumption

theorem read_byte_ne_outOfFuel (m : memory) (a : Nat) :
    memory_read_byte m a ≠ .error .outOfFuel := by
  unfold memory_read_byte
  dsimp only
  repeat' first
    | with_reducible apply load_ne_outOfFuel
    | with_reducible apply ite_ne_of_ne
    | (intro h; cases h)
    | (split <;> (intro h; cases h))

/-! ## The DMA loop -/

/-- The copy loop, started `n` bytes before its bound with at least `n + 1`
units of fuel, is the fold of the single copies over the `n` offsets left. -/
theorem dma_loop_eq_foldlM (wb wb' : memory → Nat → Nat → Except Fault memory)
    (s0 d0 L N : Nat) (hL : L < 65536) (hd : d0 + N < 65536)
    (hw : ∀ j, j < N → ∀ s b, wb s (d0 + j) b = wb' s (d0 + j) b) :
    ∀ (n k i : Nat) (m : memory), s0 + i + n = L → i + n = N →
      memory_dma_loop wb (k + n + 1) m (s0 + i) (d0 + i) L
        = (List.range' i n).foldlM
            (fun s j => match memory_read_byte s (s0 + j) with
              | .error e => .error e
              | .ok b => wb' s (d0 + j) b) m := by
  intro n
  induction n with
  | zero =>
    intro k i m h1 _
    have : ¬ (s0 + i < L) := by omega
    simp [memory_dma_loop, this]
    rfl
  | succ n ih =>
    intro k i m h1 h2
    have hlt : s0 + i < L := by omega
    have e1 : (s0 + i + 1) % 65536 = s0 + (i + 1) := by
      rw [Nat.mod_eq_of_lt (by omega)]; omega
    have e2 : (d0 + i + 1) % 65536 = d0 + (i + 1) := by
      rw [Nat.mod_eq_of_lt (by omega)]; omega
    have e3 : k + (n + 1) + 1 = (k + n + 1) + 1 := by omega
    rw [e3, memory_dma_loop]
    simp only [hlt, if_true, List.range'_succ, List.foldlM_cons, hw i (by omega), e1, e2]
    cases hr : memory_read_byte m (s0 + i) with
    | error e => rfl
    | ok b =>
      dsimp only
      cases hwb : wb' m (d0 + i) b with
      | error e => rfl
      | ok m' =>
        simp only [bind, Except.bind]
        exact ih k (i + 1) m' (by omega) (by omega)

theorem write_byte_dma_unfold (f : Nat) (m : memory) (v : Nat) :
    memory_write_byte (f + 1) m 0xFF46 v
      = memory_dma_transfert (memory_write_byte f) f m ((v <<< 8) % 65536) 0xFE00 0xA0 := by
  have hn : (0xFF46 &&& 0xF000) >>> 12 = 15 := by decide
  have hp : (0xFF46 &&& 0x0F00) >>> 8 = 15 := by decide
  simp [memory_write_byte, hn, hp]

theorem dma_write_eq_manual (m : memory) (v f g : Nat) (hv : v < 256) :
    memory_write_byte (f + 162) m 0xFF46 v = dma_manual (g + 1) v m := by
  have hs : v <<< 8 = v * 256 := by rw [Nat.shiftLeft_eq]
  have hmod : (v <<< 8) % 65536 = v <<< 8 := Nat.mod_eq_of_lt (by omega)
  have hlen : (0xA0 + (v <<< 8)) % 65536 = (v <<< 8) + 0xA0 := by
    rw [Nat.mod_eq_of_lt (by omega)]; omega
  rw [write_byte_dma_unfold, memory_dma_transfert, hmod, hlen]
  have key := dma_loop_eq_foldlM (memory_write_byte (f + 161)) (memory_write_byte (g + 1))
    (v <<< 8) 0xFE00 ((v <<< 8) + 0xA0) 160 (by omega) (by omega)
    (fun j hj s b => by
      rw [write_byte_oam (f + 160) s (0xFE00 + j) b (by omega) (by omega),
        write_byte_oam g s (0xFE00 + j) b (by omega) (by omega)])
    160 f 0 m (by omega) (by omega)
  simp only [Nat.add_zero] at key
  rw [key]
  rfl

/-- A manual copy faults only as its source read does, or with `unwired` when
no display is installed; otherwise it keeps the display installed. -/
theorem dma_manual_step_cases (g v : Nat) (s : memory) (i : Nat) (hi : i < 160) :
    (∃ e, dma_manual_step (g + 1) v s i = .error e ∧
        (memory_read_byte s ((v <<< 8) + i) = .error e ∨ (s.gp = none ∧ e = .unwired)))
    ∨ (∃ s', dma_manual_step (g + 1) v s i = .ok s' ∧ s.gp ≠ none ∧ s'.gp ≠ none) := by
  unfold dma_manual_step
  cases hr : memory_read_byte s ((v <<< 8) + i) with
  | error e => exact Or.inl ⟨e, rfl, Or.inl rfl⟩
  | ok b =>
    dsimp only
    rw [write_byte_oam g s (0xFE00 + i) b (by omega) (by omega)]
    cases hg : s.gp with
    | none => exact Or.inl ⟨.unwired, rfl, Or.inr ⟨rfl, rfl⟩⟩
    | some d => exact Or.inr ⟨_, rfl, by simp, by simp⟩

theorem dma_manual_fold_fault (g v : Nat) :
    ∀ (l : List Nat) (m : memory) (e : Fault), (∀ i, i ∈ l → i < 160) →
      l.foldlM (dma_manual_step (g + 1) v) m = .error e →
      (m.gp = none ∧ e = .unwired)
        ∨ ∃ s i, i < 160 ∧ memory_read_byte s ((v <<< 8) + i) = .error e := by
  intro l
  induction l with
  | nil => intro m e _ h; cases h
  | cons a l ih =>
    intro m e hl h
    rw [List.foldlM_cons] at h
    rcases dma_manual_step_cases g v m a (hl a (List.mem_cons_self a l)) with
      ⟨e', he', hc⟩ | ⟨s', hs', _, hg'⟩
    · rw [he'] at h
      simp only [bind, Except.bind] at h
      cases h
      rcases hc with hc | hc
      · exact Or.inr ⟨m, a, hl a (List.mem_cons_self a l), hc⟩
      · exact Or.inl hc
    · rw [hs'] at h
      simp only [bind, Except.bind] at h
      rcases ih s' e (fun i hi => hl i (List.mem_cons_of_mem a hi)) h with ⟨hn, _⟩ | hr
      · exact absurd hn hg'
      · exact Or.inr hr

/-! ## What the cartridge windows do, in general -/

/-- A read in `0x4000-0x7FFF` loads `rom[mbc_cur_offset + addr]`: the window
base `0x4000` is not subtracted. -/
theorem read_byte_banked_rom (m : memory) (a : Nat) (h1 : 0x4000 ≤ a) (h2 : a < 0x8000)
    (hb : m.mbc_cur_offset + a < m.rom_size) :
    memory_read_byte m a = .ok (m.rom (m.mbc_cur_offset + a)) := by
  have hn : a / 4096 % 16 = 4 ∨ a / 4096 % 16 = 5 ∨ a / 4096 % 16 = 6 ∨ a / 4096 % 16 = 7 := by
    omega
  have hi : ((m.mbc_cur_offset : Int) + (a : Int)).toNat = m.mbc_cur_offset + a := by omega
  have hc : ¬ ((m.mbc_cur_offset : Int) + (a : Int) < 0
      ∨ (m.rom_size : Int) ≤ (m.mbc_cur_offset : Int) + (a : Int)) := by omega
  rcases hn with hn | hn | hn | hn <;>
    simp [memory_read_byte, memory_read_byte_membank, nib12, hn, load, buffer_size, hi, hc,
      h1, h2]

/-- A bank-select write in `0x2000-0x3FFF` keeps four bits of the value. -/
theorem write_byte_bank_select (f : Nat) (m : memory) (a v : Nat) (hm : m.mbc_mode ≠ 0)
    (h1 : 0x2000 ≤ a) (h2 : a < 0x4000) :
    memory_write_byte (f + 1) m a v
      = .ok { m with mbc_cur_offset := (if v % 16 = 0 then 1 else v % 16) * 0x4000 } := by
  have hn : a / 4096 % 16 = 2 ∨ a / 4096 % 16 = 3 := by omega
  have hv : v &&& 0x0F = v % 16 := Nat.and_pow_two_sub_one_eq_mod v 4
  rcases hn with hn | hn <;>
    simp [memory_write_byte, memory_write_byte_membank, nib12, hn, hm, hv]

/-- An external-RAM write that passes the two size tests and stays inside the
buffer always ends in the store through the null `offset`. -/
theorem write_byte_external_null_store (f : Nat) (m : memory) (a v : Nat)
    (h1 : 0xA000 ≤ a) (h2 : a < 0xC000) (hs : m.ram_size ≠ 0)
    (hb : m.ram_cur_offset + (a - 0xA000) < m.ram_size) :
    memory_write_byte (f + 1) m a v = .error (.nullStore a) := by
  have hn : a / 4096 % 16 = 10 ∨ a / 4096 % 16 = 11 := by omega
  have hc : ¬ ((m.ram_cur_offset : Int) - 0xA000 + (a : Int) < 0
      ∨ (m.ram_size : Int) ≤ (m.ram_cur_offset : Int) - 0xA000 + (a : Int)) := by omega
  have hg : ¬ (a - 0xA000 > m.ram_size) := by omega
  by_cases hm : m.mbc_mode = 0
  · rcases hn with hn | hn <;>
      simp [memory_write_byte, memory_write_byte_membank, nib12, hn, hs, hg, hm, store]
  · rcases hn with hn | hn <;>
      simp [memory_write_byte, memory_write_byte_membank, nib12, hn, hs, hg, hm, store,
        buffer_size, hc]

/-- A write in `0x4000-0x5FFF` in a banked mode: the RAM bank in RAM-banking
mode, otherwise the sum the source computes for the ROM offset. -/
theorem write_byte_upper_bank_window (f : Nat) (m : memory) (a v : Nat) (hm : m.mbc_mode ≠ 0)
    (h1 : 0x4000 ≤ a) (h2 : a < 0x6000) :
    memory_write_byte (f + 1) m a v
      = if m.rom_ram_mode ≠ 0 then
          .ok { m with ram_cur_offset := (v % 4) * 0x2000 }
        else
          .ok { m with mbc_cur_offset :=
                  (m.mbc_cur_offset / 0x4000) % 32 + (v / 16 % 4) * 0x4000 } := by
  have hn : a / 4096 % 16 = 4 ∨ a / 4096 % 16 = 5 := by omega
  have hv : v &&& 0x3 = v % 4 := Nat.and_pow_two_sub_one_eq_mod v 2
  have hv2 : (v >>> 4) &&& 3 = v / 16 % 4 := by
    rw [Nat.shiftRight_eq_div_pow]
    exact Nat.and_pow_two_sub_one_eq_mod _ 2
  have ho : (m.mbc_cur_offset / 0x4000) &&& 0x1F = (m.mbc_cur_offset / 0x4000) % 32 :=
    Nat.and_pow_two_sub_one_eq_mod _ 5
  rcases hn with hn | hn <;>
    simp [memory_write_byte, memory_write_byte_membank, nib12, hn, hm, hv, hv2, ho]

/-- Without external RAM every access in `0xA000-0xBFFF` is the fatal error. -/
theorem external_access_without_ram (f : Nat) (m : memory) (a v : Nat)
    (h1 : 0xA000 ≤ a) (h2 : a < 0xC000) (hs : m.ram_size = 0) :
    memory_read_byte m a = .error .fatal
    ∧ memory_write_byte (f + 1) m a v = .error .fatal := by
  have hn : a / 4096 % 16 = 10 ∨ a / 4096 % 16 = 11 := by omega
  rcases hn with hn | hn <;>
    simp [memory_read_byte, memory_write_byte, nib12, hn, hs]

/-! ## Zero page, low ROM window and frames -/

theorem write_byte_zero (f : Nat) (m : memory) (a v : Nat)
    (h1 : 0xFF80 ≤ a) (h2 : a ≤ 0xFFFE) :
    memory_write_byte (f + 1) m a v
      = .ok { m with zero := poke m.zero (a - 0xFF80) v } := by
  have hi : ((-0xFF80 + (a : Int)).toNat) = a - 0xFF80 := by omega
  have hn : a / 4096 % 16 = 15 := by omega
  have hp : a / 256 % 16 = 15 := by omega
  simp only [memory_write_byte, nib12, nib8, hn, hp]
  simp (disch := omega) only [if_neg, if_pos]
  simp [store, buffer_size, hi]
  omega

theorem read_byte_zero (m : memory) (a : Nat) (h1 : 0xFF80 ≤ a) (h2 : a ≤ 0xFFFF) :
    memory_read_byte m a = .ok (m.zero (a - 0xFF80)) := by
  have hi : ((-0xFF80 + (a : Int)).toNat) = a - 0xFF80 := by omega
  have hn : a / 4096 % 16 = 15 := by omega
  have hp : a / 256 % 16 = 15 := by omega
  simp only [memory_read_byte, nib12, nib8, hn, hp]
  simp (disch := omega) only [if_neg, if_pos]
  simp [load, buffer_size, hi]
  omega

theorem membank_rom_window (m : memory) (a v : Nat) (h1 : 0x1000 ≤ a) (h2 : a < 0x8000) :
    ∃ m', memory_write_byte_membank m a v = .ok m'
      ∧ m'.rom = m.rom ∧ m'.rom_size = m.rom_size ∧ m'.bios = m.bios
      ∧ m'.in_bios = m.in_bios := by
  have hn : a / 4096 % 16 = 1 ∨ a / 4096 % 16 = 2 ∨ a / 4096 % 16 = 3 ∨ a / 4096 % 16 = 4
      ∨ a / 4096 % 16 = 5 ∨ a / 4096 % 16 = 6 ∨ a / 4096 % 16 = 7 := by omega
  unfold memory_write_byte_membank
  by_cases hm : m.mbc_mode = 0
  · exact ⟨m, by simp [hm], rfl, rfl, rfl, rfl⟩
  · by_cases hr : m.rom_ram_mode = 0 <;>
      rcases hn with hn | hn | hn | hn | hn | hn | hn <;>
        simp [nib12, hn, hm, hr]

theorem write_byte_rom_window (f : Nat) (m : memory) (a v : Nat)
    (h1 : 0x1000 ≤ a) (h2 : a < 0x8000) :
    memory_write_byte (f + 1) m a v = memory_write_byte_membank m a v := by
  have hn : a / 4096 % 16 = 1 ∨ a / 4096 % 16 = 2 ∨ a / 4096 % 16 = 3 ∨ a / 4096 % 16 = 4
      ∨ a / 4096 % 16 = 5 ∨ a / 4096 % 16 = 6 ∨ a / 4096 % 16 = 7 := by omega
  rcases hn with hn | hn | hn | hn | hn | hn | hn <;>
    simp [memory_write_byte, nib12, hn]

theorem write_byte_low_rom (f : Nat) (m : memory) (a v : Nat) (h2 : a < 0x1000) :
    memory_write_byte (f + 1) m a v
      = if a < 0x100 ∧ m.in_bios ≠ 0 then .ok { m with bios := poke m.bios a v }
        else .error .fatal := by
  have hn : a / 4096 % 16 = 0 := by omega
  have hpz : (a &&& 0xFF00 = 0) ↔ a < 0x100 := by
    rw [page_zero]; omega
  simp only [memory_write_byte, nib12, hn, hpz]
  by_cases hc : a < 0x100 ∧ m.in_bios ≠ 0
  · simp [hc, store, buffer_size]
  · simp [hc]

theorem read_byte_low (m : memory) (a : Nat) (h : a < 0x100) :
    memory_read_byte m a
      = if m.in_bios ≠ 0 then .ok (m.bios a)
        else if a < m.rom_size then .ok (m.rom a)
        else .error (.outOfBounds .rom a) := by
  have hn : a / 4096 % 16 = 0 := by omega
  have hpz : (a &&& 0xFF00 = 0) := by
    rw [page_zero]; omega
  simp only [memory_read_byte, nib12, hn, hpz]
  by_cases hc : m.in_bios = 0
  · by_cases hs : a < m.rom_size
    · simp [hc, hs, load, buffer_size]
    · simp [hc, hs, load, buffer_size]
  · simp [hc, load, buffer_size]
    omega

theorem write_byte_bios_latch (f : Nat) (m : memory) (v : Nat) :
    memory_write_byte (f + 1) m 0xFF50 v
      = if m.in_bios ≠ 0 then .ok { m with in_bios := if v = 0 then 1 else 0 }
        else .ok m := by
  have hn : (0xFF50 &&& 0xF000) >>> 12 = 15 := by decide
  have hp : (0xFF50 &&& 0x0F00) >>> 8 = 15 := by decide
  by_cases hc : m.in_bios = 0 <;> simp [memory_write_byte, hn, hp, hc]


theorem ok_ite {Q : memory → Prop} {c : Prop} [Decidable c] {x y : Except Fault memory}
    (hx : c → ∀ m', x = .ok m' → Q m') (hy : ¬ c → ∀ m', y = .ok m' → Q m') :
    ∀ m', (if c then x else y) = .ok m' → Q m' := by
  intro m' h
  split at h
  · exact hx ‹_› m' h
  · exact hy ‹_› m' h

theorem store_frame (m : memory) (p : Ptr) (a v : Nat) (m' : memory)
    (h : store m (some p) a v = .ok m') :
    m'.in_bios = m.in_bios ∧ (p.region ≠ .bios → m'.bios = m.bios) := by
  obtain ⟨r, d⟩ := p
  cases r <;> simp only [store] at h <;> split_ifs at h <;>
    first
    | (cases h; simp)
    | (split at h <;> cases h; simp)

theorem membank_frame (m : memory) (a v : Nat) (m' : memory)
    (h : memory_write_byte_membank m a v = .ok m') :
    m'.in_bios = m.in_bios ∧ m'.bios = m.bios := by
  unfold memory_write_byte_membank at h
  dsimp only at h
  split_ifs at h <;>
    first
    | (cases h; exact ⟨rfl, rfl⟩)
    | (have hs := store_frame _ _ _ _ _ h; exact ⟨hs.1, hs.2 (by simp)⟩)

theorem dma_loop_only_gp (k : Nat) :
    ∀ (fuel : Nat) (m : memory) (from_ to_ L : Nat) (m' : memory), L < 65536 →
      0xFE00 ≤ to_ → to_ + (L - from_) ≤ 0xFEA0 →
      memory_dma_loop (memory_write_byte k) fuel m from_ to_ L = .ok m' →
      m' = { m with gp := m'.gp } := by
  intro fuel
  induction fuel with
  | zero => intro m from_ to_ L m' _ _ _ h; simp [memory_dma_loop] at h
  | succ fuel ih =>
    intro m from_ to_ L m' hL hto hlen h
    rw [memory_dma_loop] at h
    by_cases hlt : from_ < L
    · simp only [hlt, if_true] at h
      cases hr : memory_read_byte m from_ with
      | error e => rw [hr] at h; cases h
      | ok b =>
        rw [hr] at h
        dsimp only at h
        cases k with
        | zero => simp [memory_write_byte] at h
        | succ k =>
          rw [write_byte_oam k m to_ b hto (by omega)] at h
          cases hg : m.gp with
          | none => rw [hg] at h; cases h
          | some g =>
            rw [hg] at h
            dsimp only at h
            rw [Nat.mod_eq_of_lt (by omega : from_ + 1 < 65536),
              Nat.mod_eq_of_lt (by omega : to_ + 1 < 65536)] at h
            have hh := ih _ (from_ + 1) (to_ + 1) L m' hL (by omega) (by omega) h
            exact hh
    · simp only [hlt, if_false] at h
      cases h
      rfl

theorem dma_transfert_only_gp (k fuel : Nat) (m : memory) (v : Nat) (m' : memory)
    (h : memory_dma_transfert (memory_write_byte k) fuel m ((v <<< 8) % 65536) 0xFE00 0xA0
        = .ok m') :
    m' = { m with gp := m'.gp } := by
  unfold memory_dma_transfert at h
  exact dma_loop_only_gp k fuel m _ _ _ m' (Nat.mod_lt _ (by decide)) (by decide) (by omega) h


/-- Frame of a byte write on the overlay and its latch, at every address: a
cleared `in_bios` stays cleared, and the overlay buffer changes only in the
branch taken for top nibble 0, high byte 0 and `in_bios` set. -/
theorem write_byte_overlay_frame (fuel : Nat) (m : memory) (a v : Nat) (m' : memory)
    (h : memory_write_byte fuel m a v = .ok m') :
    (m.in_bios = 0 → m'.in_bios = 0)
    ∧ (¬ (a / 4096 % 16 = 0 ∧ a / 256 % 256 = 0 ∧ m.in_bios ≠ 0) → m'.bios = m.bios) := by
  cases fuel with
  | zero => simp [memory_write_byte] at h
  | succ f =>
    revert m' h
    unfold memory_write_byte
    simp only [nib12, nib8, nib4, page_zero]
    repeat' first
      | (with_reducible refine ok_ite (fun hc => ?_) (fun hc => ?_))
      | (intro m' h; cases h; done)
      | (intro m' h; simp only [store] at h; cases h; done)
      | (intro m' h
         have hs := store_frame _ _ _ _ _ h
         refine ⟨fun h0 => by rw [hs.1]; exact h0, fun hn => ?_⟩
         first
           | (exfalso; omega)
           | exact hs.2 (by simp))
      | (intro m' h
         have hs := membank_frame _ _ _ _ h
         exact ⟨fun h0 => by rw [hs.1]; exact h0, fun _ => hs.2⟩)
      | (intro m' h
         have hs := dma_transfert_only_gp _ _ _ _ _ h
         rw [hs]
         exact ⟨fun h0 => h0, fun _ => rfl⟩)
      | (intro m' h
         split at h
         · cases h
         · cases h
           exact ⟨fun h0 => h0, fun _ => rfl⟩)
      | (intro m' h
         split at h
         · cases h
         · simp only [store] at h
           cases h)
      | (intro m' h
         cases h
         first
           | exact ⟨fun h0 => h0, fun _ => rfl⟩
           | (refine ⟨fun h0 => ?_, fun _ => rfl⟩
              exfalso
              omega))

/-- A word write from a state with `in_bios` cleared keeps it cleared and
keeps the overlay. -/
theorem write_word_overlay_frame (fuel : Nat) (m : memory) (a v : Nat) (m' : memory)
    (h0 : m.in_bios = 0) (h : memory_write_word fuel m a v = .ok m') :
    m'.in_bios = 0 ∧ m'.bios = m.bios := by
  unfold memory_write_word at h
  cases h1 : memory_write_byte fuel m a (v &&& 0xFF) with
  | error e => rw [h1] at h; cases h
  | ok m1 =>
    rw [h1] at h
    dsimp only at h
    have f1 := write_byte_overlay_frame fuel m a _ m1 h1
    have f2 := write_byte_overlay_frame fuel m1 _ _ m' h
    have z1 : m1.in_bios = 0 := f1.1 h0
    refine ⟨f2.1 z1, ?_⟩
    rw [f2.2 (by omega), f1.2 (by omega)]

/-- A sequence of writes from a state with `in_bios` cleared keeps it cleared
and keeps the overlay. -/
theorem run_writes_overlay_frame (fuel : Nat) :
    ∀ (ops : List bus_write) (m m' : memory), m.in_bios = 0 →
      run_writes fuel ops m = .ok m' → m'.in_bios = 0 ∧ m'.bios = m.bios := by
  intro ops
  induction ops with
  | nil =>
    intro m m' h0 h
    simp only [run_writes] at h
    cases h
    exact ⟨h0, rfl⟩
  | cons op rest ih =>
    intro m m' h0 h
    cases op with
    | byte a v =>
      simp only [run_writes] at h
      cases h1 : memory_write_byte fuel m a v with
      | error e => rw [h1] at h; cases h
      | ok m1 =>
        rw [h1] at h
        dsimp only at h
        have f1 := write_byte_overlay_frame fuel m a v m1 h1
        have r := ih m1 m' (f1.1 h0) h
        exact ⟨r.1, by rw [r.2, f1.2 (by omega)]⟩
    | word a v =>
      simp only [run_writes] at h
      cases h1 : memory_write_word fuel m a v with
      | error e => rw [h1] at h; cases h
      | ok m1 =>
        rw [h1] at h
        dsimp only at h
        have f1 := write_word_overlay_frame fuel m a v m1 h0 h1
        have r := ih m1 m' f1.1 h
        exact ⟨r.1, by rw [r.2, f1.2]⟩

/-! ## The claims -/

/-- C1, evaluated where it fails: with bank 1 selected (`mbc_cur_offset = 0x4000`)
the read at `0x4000` returns `rom[mbc_cur_offset + addr] = rom[0x8000]`, a byte
of bank 2, whereas `rom[mbc_cur_offset + (addr - 0x4000)] = rom[0x4000]` is a
byte of bank 1 and lies inside the ROM image. -/
theorem read_banked_rom_with_bank1_selected :
    memory_read_byte mbc1_bus 0x4000
        = .ok (mbc1_bus.rom (mbc1_bus.mbc_cur_offset + 0x4000))
    ∧ memory_read_byte mbc1_bus 0x4000 = .ok 2
    ∧ mbc1_bus.rom (mbc1_bus.mbc_cur_offset + (0x4000 - 0x4000)) = 1
    ∧ mbc1_bus.mbc_cur_offset + (0x4000 - 0x4000) < mbc1_bus.rom_size :=
  ⟨rfl, rfl, rfl, by decide⟩

/-- C2, evaluated where it fails: in a banked mode the write of `0x15` at
`0x2000` sets `mbc_cur_offset` to `5 * 0x4000` (the value is masked with
`0x0F`), whereas the low five bits `0x15 & 0x1F` name bank 21. -/
theorem write_bank_select_keeps_four_bits :
    mbc1_bus.mbc_mode ≠ 0
    ∧ field_after (memory_write_byte 1 mbc1_bus 0x2000 0x15) (fun s => s.mbc_cur_offset)
        = .ok (5 * 0x4000)
    ∧ (0x15 &&& 0x1F) * 0x4000 = 21 * 0x4000 :=
  ⟨by decide, rfl, by decide⟩

/-- C3, evaluated where it fails: in ROM-banking mode with bank 1 selected
the write of `0x10` at `0x4000` sets `mbc_cur_offset` to
`1 + 1 * 0x4000 = 0x4001` (the bank number is added to, not multiplied by,
`0x4000`), whereas `((1 & 0x1F) + 1 * 32) * 0x4000 = 0x84000`. -/
theorem write_upper_bank_bits_in_rom_mode :
    mbc1_bus.mbc_mode ≠ 0 ∧ mbc1_bus.rom_ram_mode = 0
    ∧ field_after (memory_write_byte 1 mbc1_bus 0x4000 0x10) (fun s => s.mbc_cur_offset)
        = .ok 0x4001
    ∧ (((mbc1_bus.mbc_cur_offset / 0x4000) &&& 0x1F) + ((0x10 >>> 4) &&& 3) * 32) * 0x4000
        = 0x84000 :=
  ⟨by decide, rfl, rfl, by decide⟩

/-- C4, evaluated where it fails: with 2048 bytes of external RAM and
`ram_on = 0`, the write of `0x42` at `0xA000` first stores `0x42` in
`external[0]` (the bank controller does not consult `ram_on`) and then ends in
the store through the null `offset`, instead of being dropped. -/
theorem write_external_ram_while_disabled :
    mbc1_bus.ram_on = 0 ∧ mbc1_bus.ram_size = 2048 ∧ mbc1_bus.external 0 = 0
    ∧ field_after (memory_write_byte_membank mbc1_bus 0xA000 0x42) (fun s => s.external 0)
        = .ok 0x42
    ∧ memory_write_byte 1 mbc1_bus 0xA000 0x42 = .error (.nullStore 0xA000) :=
  ⟨rfl, rfl, rfl, rfl, rfl⟩

/-- C5, evaluated where it fails: with external RAM configured and enabled,
the in-range write of `0x42` at `0xA000` does not complete (it ends in the
store through the null `offset`), so no read follows it. -/
theorem write_external_ram_while_enabled :
    mbc1_bus_ram_on.ram_on = 1 ∧ mbc1_bus_ram_on.ram_size = 2048
    ∧ mbc1_bus_ram_on.ram_cur_offset + (0xA000 - 0xA000) < mbc1_bus_ram_on.ram_size
    ∧ memory_write_byte 1 mbc1_bus_ram_on 0xA000 0x42 = .error (.nullStore 0xA000)
    ∧ read_byte_after (memory_write_byte 1 mbc1_bus_ram_on 0xA000 0x42) 0xA000
        = .error (.nullStore 0xA000) :=
  ⟨rfl, rfl, by decide, rfl, rfl⟩

/-- C6, evaluated where it fails: with `ram_size = 2048` and bank offset 0 the
access at `0xA800` has effective offset 2048, not below `ram_size`, yet the
test `addr - 0xA000 > ram_size` lets it through: the read loads
`external[2048]` and the bank controller stores at `external[2048]`, one byte
past the buffer, instead of raising the fatal error. -/
theorem external_ram_access_one_past_end :
    ¬ (mbc1_bus.ram_cur_offset + (0xA800 - 0xA000) < mbc1_bus.ram_size)
    ∧ memory_read_byte mbc1_bus 0xA800 = .error (.outOfBounds .external 2048)
    ∧ memory_read_byte mbc1_bus 0xA800 ≠ .error .fatal
    ∧ memory_write_byte 1 mbc1_bus 0xA800 0x42 = .error (.outOfBounds .external 2048) := by
  refine ⟨by decide, rfl, ?_, rfl⟩
  intro h
  have h2 : memory_read_byte mbc1_bus 0xA800 = .error (.outOfBounds .external 2048) := rfl
  rw [h2] at h
  cases h

/-- C7, evaluated where it fails: the read at `0xFFFF` is caught by the
zero-page test `addr >= 0xFF80` and returns `zero[0x7F] = 0` although the
interrupt-enable register holds `0x1F`; after `write_byte(0xFFFF, 0x05)`, which
does set the register to 5, the read at `0xFFFF` still returns 0. -/
theorem read_at_0xFFFF_returns_zero_page :
    memory_read_byte mbc1_bus 0xFFFF = .ok (mbc1_bus.zero 0x7F)
    ∧ memory_read_byte mbc1_bus 0xFFFF = .ok 0
    ∧ mbc1_bus.ir.map (fun i => i.reg.enable) = some 0x1F
    ∧ field_after (memory_write_byte 1 mbc1_bus 0xFFFF 0x05)
        (fun s => s.ir.map (fun i => i.reg.enable)) = .ok (some 0x05)
    ∧ read_byte_after (memory_write_byte 1 mbc1_bus 0xFFFF 0x05) 0xFFFF = .ok 0 :=
  ⟨rfl, rfl, rfl, rfl, rfl⟩

/-- C8: for every byte `v`, every state and enough fuel (162 units),
`write_byte(0xFF46, v)` gives exactly the outcome of the 160 manual copies
`write_byte(0xFE00 + i, read_byte((v << 8) + i))`, `i = 0..159` in order (same
final state, or same first fault); it never runs out of fuel; it faults only
with the fault of a source read, or with `unwired` when no display is
installed; the `uint16_t` bound `(v << 8) + 0xA0` does not wrap; and each
destination write is a store at index `i < 160` of OAM. -/
theorem dma_write_equiv_manual_copies (m : memory) (v f g : Nat) (hv : v < 256) :
    memory_write_byte (f + 162) m 0xFF46 v = dma_manual (g + 1) v m
    ∧ memory_write_byte (f + 162) m 0xFF46 v ≠ .error .outOfFuel
    ∧ (∀ e, memory_write_byte (f + 162) m 0xFF46 v = .error e →
        (m.gp = none ∧ e = .unwired)
          ∨ ∃ s i, i < 160 ∧ memory_read_byte s ((v <<< 8) + i) = .error e)
    ∧ (0xA0 + (v <<< 8) % 65536) % 65536 = (v <<< 8) + 0xA0
    ∧ (∀ i, i < 160 → ∀ (s : memory) (d : gpu) (b : Nat), s.gp = some d →
        0xFE00 ≤ 0xFE00 + i ∧ 0xFE00 + i ≤ 0xFE9F ∧
        memory_write_byte (g + 1) s (0xFE00 + i) b
          = .ok { s with gp := some { d with oam := poke d.oam i b } }) := by
  have hs : v <<< 8 = v * 256 := by rw [Nat.shiftLeft_eq]
  have hfault : ∀ e, memory_write_byte (f + 162) m 0xFF46 v = .error e →
      (m.gp = none ∧ e = .unwired)
        ∨ ∃ s i, i < 160 ∧ memory_read_byte s ((v <<< 8) + i) = .error e := by
    intro e he
    rw [dma_write_eq_manual m v f g hv] at he
    exact dma_manual_fold_fault g v (List.range 160) m e
      (fun i hi => List.mem_range.mp hi) he
  refine ⟨dma_write_eq_manual m v f g hv, ?_, hfault, ?_, ?_⟩
  · intro h
    rcases hfault _ h with ⟨_, hu⟩ | ⟨s, i, _, hr⟩
    · cases hu
    · exact read_byte_ne_outOfFuel s _ hr
  · rw [Nat.mod_eq_of_lt (by omega), Nat.mod_eq_of_lt (by omega)]
    omega
  · intro i hi s d b hg
    refine ⟨by omega, by omega, ?_⟩
    rw [write_byte_oam g s (0xFE00 + i) b (by omega) (by omega), hg]
    simp

/-- Witness of C8 at the running cartridge with `v = 0x80` (source `0x8000`). -/
theorem dma_write_equiv_manual_copies_witness :
    (0x80 : Nat) < 256
    ∧ memory_write_byte 162 mbc1_bus 0xFF46 0x80 = dma_manual 1 0x80 mbc1_bus :=
  ⟨by decide, (dma_write_equiv_manual_copies mbc1_bus 0x80 0 0 (by decide)).1⟩

/-- C9, evaluated where it fails: `write_word(0xFFFE, 0x1234)` stores `0x34` in
the zero page and sends `0x12` to the interrupt-enable register, and
`read_word(0xFFFE)` then takes its high byte from `zero[0x7F]`: it returns
`0x0034`, not `0x1234`. -/
theorem word_round_trip_at_0xFFFE :
    read_word_after (memory_write_word 1 mbc1_bus 0xFFFE 0x1234) 0xFFFE = .ok 0x0034
    ∧ field_after (memory_write_word 1 mbc1_bus 0xFFFE 0x1234)
        (fun s => s.ir.map (fun i => i.reg.enable)) = .ok (some 0x12) :=
  ⟨rfl, rfl⟩

/-- C10: for every state, every address `a` in `0xC000-0xDDFF` and every value
`v`, `write_byte(a, v)` and `write_byte(a + 0x2000, v)` both succeed with the
same effect, the store of `v` at index `a - 0xC000 < 8192` of the working-RAM
buffer; after the first, `read_byte(a + 0x2000)` returns `v`, and after the
second, `read_byte(a)` returns `v`. -/
theorem echo_aliasing (m : memory) (a v f : Nat) (h1 : 0xC000 ≤ a) (h2 : a ≤ 0xDDFF) :
    read_byte_after (memory_write_byte (f + 1) m a v) (a + 0x2000) = .ok v
    ∧ read_byte_after (memory_write_byte (f + 1) m (a + 0x2000) v) a = .ok v
    ∧ memory_write_byte (f + 1) m a v
        = .ok { m with working := poke m.working (a - 0xC000) v }
    ∧ memory_write_byte (f + 1) m (a + 0x2000) v
        = .ok { m with working := poke m.working (a - 0xC000) v }
    ∧ a - 0xC000 < 8192 := by
  have hw1 := write_byte_working f m a v h1 (by omega)
  have hw2 := write_byte_echo f m (a + 0x2000) v (by omega) (by omega)
  have hidx : a + 0x2000 - 0xE000 = a - 0xC000 := by omega
  rw [hidx] at hw2
  refine ⟨?_, ?_, hw1, hw2, by omega⟩
  · rw [hw1]
    simp only [read_byte_after]
    rw [read_byte_echo _ (a + 0x2000) (by omega) (by omega), hidx]
    simp [poke]
  · rw [hw2]
    simp only [read_byte_after]
    rw [read_byte_working _ a h1 (by omega)]
    simp [poke]

/-- Witness of C10 at `a = 0xC123`, echoed at `0xE123`. -/
theorem echo_aliasing_witness :
    (0xC000 ≤ 0xC123 ∧ 0xC123 ≤ 0xDDFF)
    ∧ read_byte_after (memory_write_byte 1 mbc1_bus 0xC123 0x5A) (0xC123 + 0x2000) = .ok 0x5A
    ∧ read_byte_after (memory_write_byte 1 mbc1_bus (0xC123 + 0x2000) 0x5A) 0xC123
        = .ok 0x5A :=
  ⟨by decide,
   (echo_aliasing mbc1_bus 0xC123 0x5A 0 (by decide) (by decide)).1,
   (echo_aliasing mbc1_bus 0xC123 0x5A 0 (by decide) (by decide)).2.1⟩

/-- C11: for every state, value `v` and address `a` in working RAM
(`0xC000-0xDFFF`) or in the zero page (`0xFF80-0xFFFE`), `write_byte(a, v)`
succeeds and a following `read_byte(a)` returns `v`; the byte accessed is
`working[a - 0xC000]` with `a - 0xC000 < 8192`, resp. `zero[a - 0xFF80]` with
`a - 0xFF80 < 128`. -/
theorem ram_round_trip (m : memory) (a v f : Nat) :
    (0xC000 ≤ a → a ≤ 0xDFFF →
      memory_write_byte (f + 1) m a v = .ok { m with working := poke m.working (a - 0xC000) v }
      ∧ read_byte_after (memory_write_byte (f + 1) m a v) a = .ok v
      ∧ a - 0xC000 < 8192)
    ∧ (0xFF80 ≤ a → a ≤ 0xFFFE →
      memory_write_byte (f + 1) m a v = .ok { m with zero := poke m.zero (a - 0xFF80) v }
      ∧ read_byte_after (memory_write_byte (f + 1) m a v) a = .ok v
      ∧ a - 0xFF80 < 128) := by
  constructor
  · intro h1 h2
    have hw := write_byte_working f m a v h1 (by omega)
    refine ⟨hw, ?_, by omega⟩
    rw [hw]
    simp only [read_byte_after]
    rw [read_byte_working _ a h1 (by omega)]
    simp [poke]
  · intro h1 h2
    have hw := write_byte_zero f m a v h1 h2
    refine ⟨hw, ?_, by omega⟩
    rw [hw]
    simp only [read_byte_after]
    rw [read_byte_zero _ a h1 (by omega)]
    simp [poke]

/-- Witness of C11 at `0xC005` (working RAM) and `0xFF90` (zero page). -/
theorem ram_round_trip_witness :
    read_byte_after (memory_write_byte 1 mbc1_bus 0xC005 0x7E) 0xC005 = .ok 0x7E
    ∧ read_byte_after (memory_write_byte 1 mbc1_bus 0xFF90 0x7E) 0xFF90 = .ok 0x7E :=
  ⟨((ram_round_trip mbc1_bus 0xC005 0x7E 0).1 (by decide) (by decide)).2.1,
   ((ram_round_trip mbc1_bus 0xFF90 0x7E 0).2 (by decide) (by decide)).2.1⟩

/-- C12: in every state with `in_bios` set whose ROM image holds at least the
256 bytes the overlay hides, `read_byte(addr)` for `addr` in `0x0000-0x00FF`
returns the overlay byte `bios[addr]`; `write_byte(0xFF50, 1)` returns the same
state with `in_bios` cleared, in which those reads return `rom[addr]`; and a
second `write_byte(0xFF50, 1)` returns that state unchanged. -/
theorem bios_overlay_disable (m : memory) (f : Nat) (hb : m.in_bios ≠ 0)
    (hr : 0x100 ≤ m.rom_size) :
    (∀ a, a < 0x100 → memory_read_byte m a = .ok (m.bios a))
    ∧ memory_write_byte (f + 1) m 0xFF50 1 = .ok { m with in_bios := 0 }
    ∧ (∀ a, a < 0x100 → memory_read_byte { m with in_bios := 0 } a = .ok (m.rom a))
    ∧ memory_write_byte (f + 1) { m with in_bios := 0 } 0xFF50 1
        = .ok { m with in_bios := 0 } := by
  refine ⟨?_, ?_, ?_, ?_⟩
  · intro a ha
    rw [read_byte_low m a ha]
    simp [hb]
  · rw [write_byte_bios_latch]
    simp [hb]
  · intro a ha
    rw [read_byte_low _ a ha]
    have : a < m.rom_size := by omega
    simp [this]
  · rw [write_byte_bios_latch]
    simp

/-- Witness of C12 on the booting bus, at address `0x0000`. -/
theorem bios_overlay_disable_witness :
    (boot_bus.in_bios ≠ 0 ∧ 0x100 ≤ boot_bus.rom_size)
    ∧ memory_read_byte boot_bus 0x0000 = .ok 0x31
    ∧ memory_write_byte 1 boot_bus 0xFF50 1 = .ok { boot_bus with in_bios := 0 }
    ∧ memory_read_byte { boot_bus with in_bios := 0 } 0x0000 = .ok (boot_bus.rom 0x0000) :=
  ⟨by decide,
   (bios_overlay_disable boot_bus 0 (by decide) (by decide)).1 0 (by decide),
   (bios_overlay_disable boot_bus 0 (by decide) (by decide)).2.1,
   (bios_overlay_disable boot_bus 0 (by decide) (by decide)).2.2.1 0 (by decide)⟩

/-- C13 as stated fails: on the running cartridge (`in_bios` cleared) the write
`write_byte(0x0000, 0x0A)` in the cartridge ROM range is the fatal error
`Write in ROM`. -/
theorem write_at_rom_base_is_fatal :
    mbc1_bus.in_bios = 0 ∧ memory_write_byte 1 mbc1_bus 0x0000 0x0A = .error .fatal :=
  ⟨rfl, rfl⟩

/-- C13 amended: a write at an address in `0x1000-0x7FFF` is handed to the
bank controller and completes without a fault, leaving the ROM image as it
was; a write at an address in `0x0000-0x0FFF` is the fatal error unless the
overlay is mapped there (`in_bios` set and address below `0x0100`), in which
case it is the store in the overlay buffer; and no write in `0x0000-0x7FFF`
that completes changes a ROM byte. -/
theorem rom_range_writes (m : memory) (a v f : Nat) :
    (0x1000 ≤ a → a < 0x8000 →
      memory_write_byte (f + 1) m a v = memory_write_byte_membank m a v
      ∧ ∃ m', memory_write_byte (f + 1) m a v = .ok m'
          ∧ m'.rom = m.rom ∧ m'.rom_size = m.rom_size)
    ∧ (a < 0x1000 → ¬ (a < 0x100 ∧ m.in_bios ≠ 0) →
      memory_write_byte (f + 1) m a v = .error .fatal)
    ∧ (a < 0x100 → m.in_bios ≠ 0 →
      memory_write_byte (f + 1) m a v = .ok { m with bios := poke m.bios a v })
    ∧ (a < 0x8000 → ∀ m', memory_write_byte (f + 1) m a v = .ok m' →
      m'.rom = m.rom ∧ m'.rom_size = m.rom_size) := by
  refine ⟨?_, ?_, ?_, ?_⟩
  · intro h1 h2
    obtain ⟨m', hm, hr, hs, _, _⟩ := membank_rom_window m a v h1 h2
    rw [write_byte_rom_window f m a v h1 h2]
    exact ⟨rfl, m', hm, hr, hs⟩
  · intro h1 hc
    rw [write_byte_low_rom f m a v h1]
    simp only [hc, if_false]
  · intro h1 hb
    rw [write_byte_low_rom f m a v (by omega)]
    simp [h1, hb]
  · intro h2 m' h
    by_cases h1 : a < 0x1000
    · rw [write_byte_low_rom f m a v h1] at h
      split at h
      · cases h
        exact ⟨rfl, rfl⟩
      · cases h
    · obtain ⟨m1, hm, hr, hs, _, _⟩ := membank_rom_window m a v (by omega) h2
      rw [write_byte_rom_window f m a v (by omega) h2, hm] at h
      cases h
      exact ⟨hr, hs⟩

/-- Witness of C13 amended: the bank-select write `write_byte(0x2000, 0x05)`
completes and keeps the ROM image length. -/
theorem rom_range_writes_witness :
    (0x1000 ≤ 0x2000 ∧ 0x2000 < 0x8000)
    ∧ field_after (memory_write_byte 1 mbc1_bus 0x2000 0x05) (fun s => s.rom_size)
        = .ok mbc1_bus.rom_size := by
  refine ⟨by decide, ?_⟩
  obtain ⟨_, m', hm, _, hs⟩ :=
    (rom_range_writes mbc1_bus 0x2000 0x05 0).1 (by decide) (by decide)
  rw [hm]
  simp only [field_after, hs]

/-- C14: `memory_init` is the fatal error when the header's controller type
is none of `ROM_ONLY`, `MBC1`, `MBC1_RAM`, `MBC2`, and when its RAM-size code
is 3; for a supported type and a RAM-size code 0, 1 or 2, when the image loads
and the allocations succeed, it returns the state with external RAM size 0,
2048 or 8192, `in_bios = 1`, both bank offsets 0, `ram_on = 0` and
`rom_ram_mode = 0` (buffers cleared, nothing wired). -/
theorem memory_init_outcomes (K : mbc_types) (env : init_env) (rom : GB) :
    (¬ (rom.header.type = K.ROM_ONLY ∨ rom.header.type = K.MBC1
          ∨ rom.header.type = K.MBC1_RAM ∨ rom.header.type = K.MBC2) →
      memory_init K env rom = .error .fatal)
    ∧ (rom.header.ram_size = 3 → memory_init K env rom = .error .fatal)
    ∧ ((rom.header.type = K.ROM_ONLY ∨ rom.header.type = K.MBC1
          ∨ rom.header.type = K.MBC1_RAM ∨ rom.header.type = K.MBC2) →
        env.malloc_ok = true → env.external_ok = true → env.working_ok = true →
        env.zero_ok = true →
        ∀ image, env.rom = some image →
        ∀ c size, (c = 0 ∧ size = 0) ∨ (c = 1 ∧ size = 2048) ∨ (c = 2 ∧ size = 8192) →
        rom.header.ram_size = c →
        memory_init K env rom
          = .ok { in_bios := 1, bios := fun i => standard_bios.getD i 0,
                  rom := image, rom_size := env.rom_size,
                  mbc_mode := rom.header.type,
                  mbc_cur_offset := 0, ram_cur_offset := 0, ram_on := 0, rom_ram_mode := 0,
                  ram_size := size,
                  external := fun _ => 0, working := fun _ => 0, zero := fun _ => 0,
                  gp := none, ir := none, t := none, kb := none }) := by
  refine ⟨?_, ?_, ?_⟩
  · intro ht
    unfold memory_init
    split
    · rfl
    · split
      · rfl
      · simp only [ht, not_false_eq_true, if_true]
  · intro h3
    unfold memory_init
    split
    · rfl
    · split
      · rfl
      · dsimp only
        split
        · rfl
        · simp only [h3, if_true]
  · intro ht hm he hw hz image hi c size hc hrs
    unfold memory_init
    rcases hc with ⟨hc, hsz⟩ | ⟨hc, hsz⟩ | ⟨hc, hsz⟩ <;>
      subst hc <;> subst hsz <;>
      simp [hm, he, hw, hz, hi, ht, hrs]

/-- Witness of C14: the `MBC1` cartridge with RAM-size code 1 gets 2048 bytes
of external RAM and starts in the boot overlay with bank offsets 0. -/
theorem memory_init_outcomes_witness :
    field_after (memory_init header_codes plain_env mbc1_cartridge)
      (fun s => (s.ram_size, s.in_bios, s.mbc_cur_offset, s.ram_cur_offset, s.ram_on,
        s.rom_ram_mode)) = .ok (2048, 1, 0, 0, 0, 0) := by
  rw [(memory_init_outcomes header_codes plain_env mbc1_cartridge).2.2
    (by decide) rfl rfl rfl rfl _ rfl 1 2048 (by decide) rfl]
  rfl

/-- C15: for every state, value and address in `0xFF00-0xFF7F` outside the
register table (`0xFF00`, `0xFF04-0xFF07`, `0xFF0F`, `0xFF40-0xFF49`,
`0xFF50`), `read_byte` returns 0 without a fault (a read returns a value only,
the state is untouched) and `write_byte` returns the state unchanged. -/
theorem unimplemented_io_tolerated (m : memory) (a v f : Nat)
    (h1 : 0xFF00 ≤ a) (h2 : a ≤ 0xFF7F)
    (h00 : a ≠ 0xFF00) (h04 : ¬ (0xFF04 ≤ a ∧ a ≤ 0xFF07)) (h0f : a ≠ 0xFF0F)
    (h40 : ¬ (0xFF40 ≤ a ∧ a ≤ 0xFF49)) (h50 : a ≠ 0xFF50) :
    memory_read_byte m a = .ok 0 ∧ memory_write_byte (f + 1) m a v = .ok m := by
  have hn : a / 4096 % 16 = 15 := by omega
  have hp : a / 256 % 16 = 15 := by omega
  constructor
  · simp only [memory_read_byte, nib12, nib8, hn, hp]
    simp (disch := omega) only [if_neg, if_pos]
    rfl
  · simp only [memory_write_byte, nib12, nib8, hn, hp]
    simp (disch := omega) only [if_neg, if_pos]
    rfl

/-- Witness of C15 at the unhandled address `0xFF10`. -/
theorem unimplemented_io_tolerated_witness :
    memory_read_byte mbc1_bus 0xFF10 = .ok 0
    ∧ memory_write_byte 1 mbc1_bus 0xFF10 0x80 = .ok mbc1_bus :=
  unimplemented_io_tolerated mbc1_bus 0xFF10 0x80 0 (by decide) (by decide) (by decide)
    (by decide) (by decide) (by decide) (by decide)

/-- C16 as stated fails: `write_byte(0xFF47, 0xE4)` does store `0xE4` in the
background palette register, but the following `read_byte(0xFF47)` returns 0,
not `0xE4`. -/
theorem palette_read_back_returns_zero :
    field_after (memory_write_byte 1 mbc1_bus 0xFF47 0xE4)
        (fun s => s.gp.map (fun g => g.reg.bg_pal)) = .ok (some 0xE4)
    ∧ read_byte_after (memory_write_byte 1 mbc1_bus 0xFF47 0xE4) 0xFF47 = .ok 0 :=
  ⟨rfl, rfl⟩

/-- C16 amended: with the display wired, `write_byte(a, v)` for `a` =
`0xFF47`, `0xFF48`, `0xFF49` stores `v` in `bg_pal`, `sp_pal_0`, `sp_pal_1`
and changes nothing else; the three registers have no read branch, so in
every state `read_byte(a)` is the unimplemented-read default 0. -/
theorem palette_registers_write_only (m : memory) (g : gpu) (v f : Nat) (hg : m.gp = some g) :
    memory_write_byte (f + 1) m 0xFF47 v
        = .ok { m with gp := some { g with reg := { g.reg with bg_pal := v } } }
    ∧ memory_write_byte (f + 1) m 0xFF48 v
        = .ok { m with gp := some { g with reg := { g.reg with sp_pal_0 := v } } }
    ∧ memory_write_byte (f + 1) m 0xFF49 v
        = .ok { m with gp := some { g with reg := { g.reg with sp_pal_1 := v } } }
    ∧ (∀ s : memory, memory_read_byte s 0xFF47 = .ok 0 ∧ memory_read_byte s 0xFF48 = .ok 0
        ∧ memory_read_byte s 0xFF49 = .ok 0) := by
  have n7 : (0xFF47 &&& 0xF000) >>> 12 = 15 := by decide
  have p7 : (0xFF47 &&& 0x0F00) >>> 8 = 15 := by decide
  have n8 : (0xFF48 &&& 0xF000) >>> 12 = 15 := by decide
  have p8 : (0xFF48 &&& 0x0F00) >>> 8 = 15 := by decide
  have n9 : (0xFF49 &&& 0xF000) >>> 12 = 15 := by decide
  have p9 : (0xFF49 &&& 0x0F00) >>> 8 = 15 := by decide
  refine ⟨?_, ?_, ?_, ?_⟩
  · simp [memory_write_byte, n7, p7, hg]
  · simp [memory_write_byte, n8, p8, hg]
  · simp [memory_write_byte, n9, p9, hg]
  · intro s
    refine ⟨?_, ?_, ?_⟩
    · simp [memory_read_byte, n7, p7]
    · simp [memory_read_byte, n8, p8]
    · simp [memory_read_byte, n9, p9]

/-- Witness of C16 amended on the running cartridge. -/
theorem palette_registers_write_only_witness :
    mbc1_bus.gp = some blank_gpu
    ∧ memory_write_byte 1 mbc1_bus 0xFF47 0xE4
        = .ok { mbc1_bus with
                  gp := some { blank_gpu with reg := { blank_gpu.reg with bg_pal := 0xE4 } } }
    ∧ memory_read_byte mbc1_bus 0xFF47 = .ok 0 :=
  ⟨rfl, (palette_registers_write_only mbc1_bus blank_gpu 0xE4 0 rfl).1,
    ((palette_registers_write_only mbc1_bus blank_gpu 0xE4 0 rfl).2.2.2 mbc1_bus).1⟩

/-- C17 as stated fails: while `in_bios` is set, `write_byte(0x0000, 0x00)`
replaces the overlay byte `0x31` by `0x00`, and the read at `0x0000` then
returns `0x00`. -/
theorem overlay_write_while_in_bios :
    boot_bus.in_bios = 1 ∧ boot_bus.bios 0 = 0x31
    ∧ field_after (memory_write_byte 1 boot_bus 0x0000 0x00) (fun s => s.bios 0) = .ok 0x00
    ∧ read_byte_after (memory_write_byte 1 boot_bus 0x0000 0x00) 0x0000 = .ok 0x00 :=
  ⟨rfl, rfl, rfl, rfl⟩

/-- C17 amended: a `write_byte` changes the overlay only at an address in
`0x0000-0x00FF` while `in_bios` is set, where it stores the value in the
overlay byte at that address; every other `write_byte` that completes leaves
the 256 overlay bytes unchanged; and from a state with `in_bios` cleared every
sequence of `write_byte` / `write_word` calls that completes leaves the
overlay unchanged and `in_bios` cleared; a read in `0x0000-0x00FF` while
`in_bios` is set returns the current overlay byte. -/
theorem overlay_changed_only_through_boot_window (m : memory) (fuel : Nat) :
    (∀ a v, a < 0x100 → m.in_bios ≠ 0 →
      memory_write_byte (fuel + 1) m a v = .ok { m with bios := poke m.bios a v })
    ∧ (∀ a v m', a < 65536 → ¬ (a < 0x100 ∧ m.in_bios ≠ 0) →
      memory_write_byte fuel m a v = .ok m' → m'.bios = m.bios)
    ∧ (∀ ops m', m.in_bios = 0 → run_writes fuel ops m = .ok m' →
      m'.bios = m.bios ∧ m'.in_bios = 0)
    ∧ (∀ a, a < 0x100 → m.in_bios ≠ 0 → memory_read_byte m a = .ok (m.bios a)) := by
  refine ⟨?_, ?_, ?_, ?_⟩
  · intro a v ha hb
    rw [write_byte_low_rom fuel m a v (by omega)]
    simp [ha, hb]
  · intro a v m' ha hc h
    exact (write_byte_overlay_frame fuel m a v m' h).2 (by omega)
  · intro ops m' h0 h
    have r := run_writes_overlay_frame fuel ops m m' h0 h
    exact ⟨r.2, r.1⟩
  · intro a ha hb
    rw [read_byte_low m a ha]
    simp [hb]

/-- Witness of C17 amended: on the running cartridge a byte write and a word
write in a row leave the first overlay byte as it was. -/
theorem overlay_changed_only_through_boot_window_witness :
    mbc1_bus.in_bios = 0
    ∧ field_after (run_writes 1 [.byte 0xC000 0x12, .word 0xFF80 0x3456] mbc1_bus)
        (fun s => s.bios 0) = .ok (mbc1_bus.bios 0) := by
  refine ⟨rfl, ?_⟩
  cases h : run_writes 1 [.byte 0xC000 0x12, .word 0xFF80 0x3456] mbc1_bus with
  | error e =>
    have hr : field_after (run_writes 1 [.byte 0xC000 0x12, .word 0xFF80 0x3456] mbc1_bus)
        (fun s => s.bios 0) = .ok 0x31 := rfl
    rw [h] at hr
    cases hr
  | ok m' =>
    have r := (overlay_changed_only_through_boot_window mbc1_bus 1).2.2.1 _ m' rfl h
    simp only [field_after, r.1]

/-- C18, evaluated where it fails: from the bus `memory_init` builds for an
`MBC1` cartridge, `write_byte(0x2000, 0x01)` (select bank 1) followed by
`write_byte(0x4000, 0x00)` (upper bank bits, ROM-banking mode) leaves
`mbc_cur_offset = 1`, which is not a multiple of `0x4000`; `ram_cur_offset`
is still 0. -/
theorem rom_offset_after_two_bank_writes :
    field_after
        (run_writes_after (memory_init header_codes plain_env mbc1_cartridge) 1
          [.byte 0x2000 0x01, .byte 0x4000 0x00])
        (fun s => (s.mbc_cur_offset, s.ram_cur_offset)) = .ok (1, 0)
    ∧ 1 % 0x4000 ≠ 0 :=
  ⟨rfl, by decide⟩

/-- C19: in every state with `in_bios` cleared, a `write_byte` and a
`write_word` at any address with any value and any fuel (the DMA trigger
included) that return a state return one with `in_bios` cleared, and so does
every sequence of them; `read_byte` and `read_word` return a value only and
leave the state untouched. -/
theorem in_bios_one_way_latch (m : memory) (fuel : Nat) (h0 : m.in_bios = 0) :
    (∀ a v m', memory_write_byte fuel m a v = .ok m' → m'.in_bios = 0)
    ∧ (∀ a v m', memory_write_word fuel m a v = .ok m' → m'.in_bios = 0)
    ∧ (∀ ops m', run_writes fuel ops m = .ok m' → m'.in_bios = 0) :=
  ⟨fun a v m' h => (write_byte_overlay_frame fuel m a v m' h).1 h0,
   fun a v m' h => (write_word_overlay_frame fuel m a v m' h0 h).1,
   fun ops m' h => (run_writes_overlay_frame fuel ops m m' h0 h).1⟩

/-- Witness of C19: on the running cartridge the write `write_byte(0xFF50, 0)`
at the latch address returns a state with `in_bios` still cleared. -/
theorem in_bios_one_way_latch_witness :
    mbc1_bus.in_bios = 0
    ∧ memory_write_byte 1 mbc1_bus 0xFF50 0x00 = .ok mbc1_bus
    ∧ field_after (memory_write_byte 1 mbc1_bus 0xFF50 0x00) (fun s => s.in_bios) = .ok 0 := by
  have hw : memory_write_byte 1 mbc1_bus 0xFF50 0x00 = .ok mbc1_bus := rfl
  refine ⟨rfl, hw, ?_⟩
  have r := (in_bios_one_way_latch mbc1_bus 1 rfl).1 0xFF50 0x00 mbc1_bus hw
  rw [hw]
  simp only [field_after, r]

/-- C20: for every state and value, `write_byte(a, v)` with `a` in working RAM
or its echo (`0xC000-0xFDFF`) returns the state in which only `working` has
changed, and with `a` in the zero page (`0xFF80-0xFFFE`) the state in which
only `zero` has changed; in the changed buffer the byte at the index of `a` is
`v` and every other byte is as before.  All other fields (bank controller,
`in_bios`, overlay, ROM, external RAM, display, timer, interrupt and keyboard
blocks) are those of the state before. -/
theorem ram_write_frame (m : memory) (a v f : Nat) :
    (0xC000 ≤ a → a ≤ 0xDFFF →
      memory_write_byte (f + 1) m a v = .ok { m with working := poke m.working (a - 0xC000) v })
    ∧ (0xE000 ≤ a → a ≤ 0xFDFF →
      memory_write_byte (f + 1) m a v = .ok { m with working := poke m.working (a - 0xE000) v })
    ∧ (0xFF80 ≤ a → a ≤ 0xFFFE →
      memory_write_byte (f + 1) m a v = .ok { m with zero := poke m.zero (a - 0xFF80) v })
    ∧ (∀ (buf : Nat → Nat) (i : Nat), poke buf i v i = v
        ∧ ∀ j, j ≠ i → poke buf i v j = buf j) := by
  refine ⟨fun h1 h2 => write_byte_working f m a v h1 (by omega),
    fun h1 h2 => write_byte_echo f m a v h1 (by omega),
    fun h1 h2 => write_byte_zero f m a v h1 h2, ?_⟩
  intro buf i
  refine ⟨by simp [poke], ?_⟩
  intro j hj
  simp [poke, hj]

/-- Witness of C20 at `0xC005`, `0xE005` and `0xFF90` on the running cartridge. -/
theorem ram_write_frame_witness :
    memory_write_byte 1 mbc1_bus 0xC005 0x7E
        = .ok { mbc1_bus with working := poke mbc1_bus.working (0xC005 - 0xC000) 0x7E }
    ∧ memory_write_byte 1 mbc1_bus 0xE005 0x7E
        = .ok { mbc1_bus with working := poke mbc1_bus.working (0xE005 - 0xE000) 0x7E }
    ∧ memory_write_byte 1 mbc1_bus 0xFF90 0x7E
        = .ok { mbc1_bus with zero := poke mbc1_bus.zero (0xFF90 - 0xFF80) 0x7E } :=
  ⟨(ram_write_frame mbc1_bus 0xC005 0x7E 0).1 (by decide) (by decide),
   (ram_write_frame mbc1_bus 0xE005 0x7E 0).2.1 (by decide) (by decide),
   (ram_write_frame mbc1_bus 0xFF90 0x7E 0).2.2.1 (by decide) (by decide)⟩

end GbcMemory
